import Mathlib

/-!
# Verification of the Myo-Logger protocol stack

Shallow embedding of the BLED112 packet framer, the command channel,
the Myo session operations and the consumer pool, with theorems about
the framing, dispatch, subscription and invariant properties.

Source files embedded: `bled112.py`, `myoraw.py`, `consumerpool.py`.
-/

namespace MyoLogger

/-! ## Packet framer (`bled112.py`, class `Packet` and `BLED112._proc_byte`) -/

/-- Embeds `Packet.__init__`: `typ = ords[0]`, `cls = ords[2]`, `cmd = ords[3]`,
`payload = ords[4:]`.  Bytes are modelled as `Nat` values below 256. -/
structure Packet where
  typ : Nat
  cls : Nat
  cmd : Nat
  payload : List Nat
deriving Repr, DecidableEq

/-- Build a `Packet` from the accumulated buffer, as `Packet(self.buf)` does. -/
def Packet.ofOrds (ords : List Nat) : Packet :=
  { typ := ords.headD 0
    cls := (ords.drop 2).headD 0
    cmd := (ords.drop 3).headD 0
    payload := ords.drop 4 }

/-- Framer state: `self.buf` and `self.packet_len` of `BLED112`.
`packetLen = 0` models the attribute being unset (before the first
length byte ever arrives); Python's `if self.packet_len` truthiness
test is the `packetLen ≠ 0` guard below. -/
structure FramerState where
  buf : List Nat
  packetLen : Nat
deriving Repr, DecidableEq

/-- The framer of a freshly constructed `BLED112`: empty buffer. -/
def initFramer : FramerState := { buf := [], packetLen := 0 }

/-- The four byte values accepted as a frame start in the idle state
(`c in [0x00, 0x80, 0x08, 0x88]`). -/
def validStarts : List Nat := [0x00, 0x80, 0x08, 0x88]

/-- Embeds `BLED112._proc_byte`: one byte through the framer state machine,
returning the updated state and the completed packet, if any. -/
def procByte (st : FramerState) (c : Nat) : FramerState × Option Packet :=
  if st.buf = [] then
    if c ∈ validStarts then ({ st with buf := [c] }, none) else (st, none)
  else if st.buf.length = 1 then
    ({ buf := st.buf ++ [c], packetLen := 4 + (st.buf.headD 0 &&& 0x07) + c }, none)
  else
    let buf' := st.buf ++ [c]
    if st.packetLen ≠ 0 ∧ buf'.length = st.packetLen then
      ({ buf := [], packetLen := st.packetLen }, some (Packet.ofOrds buf'))
    else
      ({ st with buf := buf' }, none)

/-- Feed a byte list through the framer, collecting every emitted packet
in order. -/
def feedBytes (st : FramerState) : List Nat → FramerState × List Packet
  | [] => (st, [])
  | c :: cs =>
    let (st', op) := procByte st c
    let (st'', ps) := feedBytes st' cs
    (st'', op.toList ++ ps)

theorem feedBytes_nil (st : FramerState) : feedBytes st [] = (st, []) := rfl

theorem feedBytes_cons (st : FramerState) (c : Nat) (cs : List Nat) :
    feedBytes st (c :: cs) =
      ((feedBytes (procByte st c).1 cs).1,
        (procByte st c).2.toList ++ (feedBytes (procByte st c).1 cs).2) := by
  simp only [feedBytes]

/-- While the buffer holds at least two bytes and stays strictly below
`packetLen`, feeding bytes only accumulates and emits nothing. -/
theorem feed_accumulate (cs : List Nat) : ∀ (buf : List Nat) (plen : Nat),
    2 ≤ buf.length → buf.length + cs.length < plen →
    feedBytes ⟨buf, plen⟩ cs = (⟨buf ++ cs, plen⟩, []) := by
  induction cs with
  | nil => intro buf plen _ _; simp [feedBytes]
  | cons c cs ih =>
    intro buf plen h2 hlt
    have hne : buf ≠ [] := by
      intro h; rw [h] at h2; simp at h2
    have hlen1 : buf.length ≠ 1 := by omega
    have hproc : procByte ⟨buf, plen⟩ c = (⟨buf ++ [c], plen⟩, none) := by
      unfold procByte
      simp only [hne, if_neg]
      have : ¬ (buf.length = 1) := hlen1
      simp only [this, if_neg]
      have hlt' : ¬ (plen ≠ 0 ∧ (buf ++ [c]).length = plen) := by
        simp only [List.length_append, List.length_singleton]
        intro ⟨_, habs⟩
        simp at hlt
        omega
      simp only [hlt', if_false]
    rw [feedBytes_cons, hproc]
    simp only [Option.toList_none, List.nil_append]
    have hrec := ih (buf ++ [c]) plen (by simp; omega)
      (by simp at hlt ⊢; omega)
    rw [hrec]
    simp

/-- When the remaining bytes exactly complete the packet, the framer
emits precisely one packet, at the very last byte, and resets its
buffer. -/
theorem feed_complete (cs : List Nat) : ∀ (buf : List Nat) (plen : Nat),
    2 ≤ buf.length → cs ≠ [] → buf.length + cs.length = plen →
    feedBytes ⟨buf, plen⟩ cs = (⟨[], plen⟩, [Packet.ofOrds (buf ++ cs)]) := by
  induction cs with
  | nil => intro _ _ _ hne _; exact absurd rfl hne
  | cons c cs ih =>
    intro buf plen h2 _ hlen
    have hne : buf ≠ [] := by
      intro h; rw [h] at h2; simp at h2
    have hlen1 : buf.length ≠ 1 := by omega
    by_cases hcs : cs = []
    · subst hcs
      have hfin : (buf ++ [c]).length = plen := by
        simp at hlen ⊢; omega
      have hproc : procByte ⟨buf, plen⟩ c =
          (⟨[], plen⟩, some (Packet.ofOrds (buf ++ [c]))) := by
        unfold procByte
        simp only [hne, if_neg, hlen1, if_neg]
        have : plen ≠ 0 ∧ (buf ++ [c]).length = plen := ⟨by omega, hfin⟩
        simp [this]
      rw [feedBytes_cons, hproc]
      simp [feedBytes]
    · have hproc : procByte ⟨buf, plen⟩ c = (⟨buf ++ [c], plen⟩, none) := by
        unfold procByte
        simp only [hne, if_neg, hlen1, if_neg]
        have hlt' : ¬ (plen ≠ 0 ∧ (buf ++ [c]).length = plen) := by
          simp only [List.length_append, List.length_singleton]
          intro ⟨_, habs⟩
          have : cs.length ≠ 0 := by
            intro h0; exact hcs (List.length_eq_zero.mp h0)
          simp at hlen
          omega
        simp only [hlt', if_false]
      rw [feedBytes_cons, hproc]
      simp only [Option.toList_none, List.nil_append]
      have hrec := ih (buf ++ [c]) plen (by simp; omega) hcs
        (by simp at hlen ⊢; omega)
      rw [hrec]
      simp

/-- Splitting a fed byte list concatenates the emitted packets. -/
theorem feedBytes_append (xs ys : List Nat) : ∀ st : FramerState,
    feedBytes st (xs ++ ys) =
      ((feedBytes (feedBytes st xs).1 ys).1,
        (feedBytes st xs).2 ++ (feedBytes (feedBytes st xs).1 ys).2) := by
  induction xs with
  | nil => intro st; simp [feedBytes]
  | cons x xs ih =>
    intro st
    rw [List.cons_append, feedBytes_cons, feedBytes_cons, ih]
    simp

/-- The first two bytes of a frame (an accepted start byte and the length
byte) are absorbed without emission, setting `packet_len`. -/
theorem feed_header (b0 b1 : Nat) (cs : List Nat) (h0 : b0 ∈ validStarts) :
    feedBytes initFramer (b0 :: b1 :: cs) =
      feedBytes ⟨[b0, b1], 4 + (b0 &&& 0x07) + b1⟩ cs := by
  have h1 : procByte initFramer b0 = (⟨[b0], 0⟩, none) := by
    simp [procByte, initFramer, h0]
  have h2 : procByte ⟨[b0], 0⟩ b1 =
      (⟨[b0, b1], 4 + (b0 &&& 0x07) + b1⟩, none) := by
    simp [procByte]
  rw [feedBytes_cons, h1]
  simp only
  rw [feedBytes_cons, h2]
  simp

/-- A full frame whose start byte is accepted is parsed into exactly one
packet, leaving the buffer empty. -/
theorem feed_frame (b0 b1 : Nat) (rest : List Nat) (h0 : b0 ∈ validStarts)
    (hlen : rest.length = 2 + (b0 &&& 0x07) + b1) :
    feedBytes initFramer (b0 :: b1 :: rest) =
      (⟨[], 4 + (b0 &&& 0x07) + b1⟩, [Packet.ofOrds (b0 :: b1 :: rest)]) := by
  rw [feed_header b0 b1 rest h0]
  have h := feed_complete rest [b0, b1] (4 + (b0 &&& 0x07) + b1) (by simp)
    (by intro h; rw [h] at hlen; simp at hlen; omega)
    (by simp [hlen]; omega)
  rw [h]
  simp

/-- No proper prefix of an accepted frame causes an emission. -/
theorem feed_frame_incomplete (b0 b1 : Nat) (rest : List Nat)
    (h0 : b0 ∈ validStarts)
    (hlen : rest.length = 2 + (b0 &&& 0x07) + b1) :
    ∀ m, m < 4 + (b0 &&& 0x07) + b1 →
      (feedBytes initFramer ((b0 :: b1 :: rest).take m)).2 = [] := by
  intro m hm
  match m with
  | 0 => simp [feedBytes]
  | 1 =>
    have h : (b0 :: b1 :: rest).take 1 = [b0] := by simp
    rw [h]
    simp [feedBytes, procByte, initFramer, h0]
  | (k + 2) =>
    have htake : (b0 :: b1 :: rest).take (k + 2) = b0 :: b1 :: rest.take k := by
      simp
    rw [htake, feed_header b0 b1 (rest.take k) h0]
    have hk : (rest.take k).length = k := by
      rw [List.length_take]
      omega
    rw [feed_accumulate (rest.take k) [b0, b1] (4 + (b0 &&& 0x07) + b1)
      (by simp) (by simp only [hk, List.length_cons, List.length_nil]; omega)]

/-- Garbage bytes (never an accepted start value) are discarded one by
one, leaving the framer idle. -/
theorem feed_junk (junk : List Nat) (h : ∀ g ∈ junk, g ∉ validStarts) :
    feedBytes initFramer junk = (initFramer, []) := by
  induction junk with
  | nil => rfl
  | cons g gs ih =>
    rw [feedBytes_cons]
    have hg : procByte initFramer g = (initFramer, none) := by
      simp [procByte, initFramer, h g (by simp)]
    rw [hg, ih (fun x hx => h x (by simp [hx]))]
    simp

/-- C1 (counterexample): the frame `[0x81, 1, 5, 5, 5, 5]` has a first
byte with low three bits `n = 1` and length byte `L = 1`, so the claim
says the framer emits its packet once `4 + 1 + 1 = 6` bytes are consumed;
but `0x81` is not one of the accepted start values, every byte is
discarded, and nothing is ever emitted. -/
theorem framer_C1_counterexample :
    (feedBytes initFramer [0x81, 1, 5, 5, 5, 5]).2 = [] ∧
    (feedBytes initFramer [0x81, 1, 5, 5, 5, 5]).2 ≠
      [Packet.ofOrds [0x81, 1, 5, 5, 5, 5]] := by
  decide

/-- C1 (amended): for every well-formed frame whose first byte is one of
the four accepted type markers `0x00, 0x08, 0x80, 0x88` (each of which
has low three bits `n = 0`) and whose second byte is `L`, fed
byte-by-byte from the idle state, the framer emits the completed packet
exactly when `4 + n + L` bytes have been consumed (including `L = 0` and
`L = 255`) and emits nothing on any earlier byte; frames whose first
byte is `0x80 | n` with `n ∈ 1..7` are not recognized, their first byte
being discarded in the idle state. -/
theorem framer_emits_exactly_at_end (b0 b1 : Nat) (rest : List Nat)
    (h0 : b0 ∈ validStarts)
    (hlen : rest.length = 2 + (b0 &&& 0x07) + b1) :
    (feedBytes initFramer (b0 :: b1 :: rest)).2 =
      [Packet.ofOrds (b0 :: b1 :: rest)] ∧
    ∀ m, m < 4 + (b0 &&& 0x07) + b1 →
      (feedBytes initFramer ((b0 :: b1 :: rest).take m)).2 = [] := by
  refine ⟨?_, feed_frame_incomplete b0 b1 rest h0 hlen⟩
  rw [feed_frame b0 b1 rest h0 hlen]

/-- C1 witness: boundary cases `L = 0` (frame of 4 bytes) and `L = 255`
(frame of 259 bytes), both with start byte `0x80` (`n = 0`): the packet
appears exactly at the last byte and not on the 258-byte prefix. -/
theorem framer_emits_exactly_at_end_witness :
    (feedBytes initFramer (0x80 :: 0 :: [7, 7])).2 =
      [Packet.ofOrds (0x80 :: 0 :: [7, 7])] ∧
    (feedBytes initFramer (0x80 :: 255 :: List.replicate 257 7)).2 =
      [Packet.ofOrds (0x80 :: 255 :: List.replicate 257 7)] ∧
    (feedBytes initFramer
      ((0x80 :: 255 :: List.replicate 257 7).take 258)).2 = [] :=
  ⟨(framer_emits_exactly_at_end 0x80 0 [7, 7] (by decide) (by decide)).1,
   (framer_emits_exactly_at_end 0x80 255 (List.replicate 257 7) (by decide)
      (by rw [List.length_replicate]; decide)).1,
   (framer_emits_exactly_at_end 0x80 255 (List.replicate 257 7) (by decide)
      (by rw [List.length_replicate]; decide)).2 258 (by decide)⟩

/-- C2: for every frame of the dongle wire format that the framer
recognizes (start byte among the four accepted markers, for which
`type_byte &&& 7 = 0`), the emitted packet's payload length equals
`len_byte + (type_byte &&& 7) * 256`, the total frame length consumed
before the packet is emitted equals `4 +` that payload length, and no
proper prefix of the frame emits anything. -/
theorem framer_wire_format_length (b0 b1 : Nat) (rest : List Nat)
    (h0 : b0 ∈ validStarts)
    (hlen : rest.length = 2 + (b1 + (b0 &&& 0x07) * 256)) :
    (feedBytes initFramer (b0 :: b1 :: rest)).2 =
      [Packet.ofOrds (b0 :: b1 :: rest)] ∧
    (Packet.ofOrds (b0 :: b1 :: rest)).payload.length =
      b1 + (b0 &&& 0x07) * 256 ∧
    (b0 :: b1 :: rest).length = 4 + (b1 + (b0 &&& 0x07) * 256) ∧
    ∀ m, m < (b0 :: b1 :: rest).length →
      (feedBytes initFramer ((b0 :: b1 :: rest).take m)).2 = [] := by
  have hn : b0 &&& 0x07 = 0 := by
    fin_cases h0 <;> rfl
  rw [hn] at hlen ⊢
  simp only [Nat.zero_mul, Nat.add_zero] at hlen ⊢
  have hlen' : rest.length = 2 + (b0 &&& 0x07) + b1 := by rw [hn]; omega
  refine ⟨?_, ?_, ?_, ?_⟩
  · rw [feed_frame b0 b1 rest h0 hlen']
  · simp [Packet.ofOrds, hlen]
  · simp only [List.length_cons, hlen]
    omega
  · intro m hm
    have := feed_frame_incomplete b0 b1 rest h0 hlen' m
      (by rw [hn]; simp at hm; omega)
    exact this

/-- C2 witness: a concrete recognized event frame with `L = 2`. -/
theorem framer_wire_format_length_witness :
    (feedBytes initFramer [0x80, 2, 4, 5, 9, 9]).2 =
      [Packet.ofOrds [0x80, 2, 4, 5, 9, 9]] ∧
    (Packet.ofOrds [0x80, 2, 4, 5, 9, 9]).payload.length =
      2 + (0x80 &&& 0x07) * 256 :=
  ⟨(framer_wire_format_length 0x80 2 [4, 5, 9, 9] (by decide) (by decide)).1,
   (framer_wire_format_length 0x80 2 [4, 5, 9, 9] (by decide) (by decide)).2.1⟩

/-- C7: a stream of arbitrary garbage bytes (none of which is an
accepted start value) followed by one well-formed frame yields exactly
one packet, whose type, class, command and payload fields match the
frame's encoded values. -/
theorem framer_resync (junk : List Nat) (b0 b1 c0 c1 : Nat)
    (payload : List Nat)
    (hjunk : ∀ g ∈ junk, g ∉ validStarts)
    (h0 : b0 ∈ validStarts)
    (hlen : payload.length = (b0 &&& 0x07) + b1) :
    (feedBytes initFramer (junk ++ b0 :: b1 :: c0 :: c1 :: payload)).2 =
      [{ typ := b0, cls := c0, cmd := c1, payload := payload }] := by
  rw [feedBytes_append, feed_junk junk hjunk]
  have hframe := feed_frame b0 b1 (c0 :: c1 :: payload) h0
    (by simp [hlen]; omega)
  simp only
  rw [hframe]
  simp [Packet.ofOrds]

/-- C7 witness: three garbage bytes before a 5-byte event frame. -/
theorem framer_resync_witness :
    (feedBytes initFramer
      ([0x42, 0xff, 0x07] ++ 0x80 :: 1 :: 4 :: 5 :: [0x2a])).2 =
      [{ typ := 0x80, cls := 4, cmd := 5, payload := [0x2a] }] :=
  framer_resync [0x42, 0xff, 0x07] 0x80 1 4 5 [0x2a]
    (by decide) (by decide) (by decide)

/-! ## Command channel (`bled112.py`: `_handle_event`, `_send_command`,
`_wait_event`, and the event dispatch done inside `recv_packet`) -/

/-- Handler state of a `BLED112` object: `_internal_handler` is either
absent or the `_wait_event` filter closure, determined by its captured
`(cls, cmd)` pair together with the `res[0]` cell it writes to;
`external` records whether an `_external_handler` is registered. -/
structure Handlers where
  internal : Option (Nat × Nat)
  matched : Option Packet
  external : Bool
deriving Repr, DecidableEq

/-- Embeds `BLED112._handle_event`: run the internal handler (the wait filter,
which stores the packet into `res[0]` on a class/command match), then
the external handler.  Returns the new handler state and the list of
packets passed to the external handler. -/
def handleEvent (h : Handlers) (p : Packet) : Handlers × List Packet :=
  ({ internal := h.internal
     matched :=
       match h.internal with
       | some (c, m) => if p.cls = c ∧ p.cmd = m then some p else h.matched
       | none => h.matched
     external := h.external },
   if h.external then [p] else [])

/-- The dispatch `recv_packet` performs on a completed packet before
returning it: event packets (`typ == 0x80`) go through `_handle_event`,
anything else is returned undispatched. -/
def recvDispatch (h : Handlers) (p : Packet) : Handlers × List Packet :=
  if p.typ = 0x80 then handleEvent h p else (h, [])

/-- The read loop of `BLED112._send_command` over the already-framed
packet stream: return the first packet with `typ == 0`, passing every
other packet to `_handle_event` (after the dispatch `recv_packet`
itself already did).  Result: final handler state, the returned
response (if the stream provides one), and the packets passed to the
external handler. -/
def sendCommandLoop (h : Handlers) :
    List Packet → Handlers × Option Packet × List Packet
  | [] => (h, none, [])
  | p :: ps =>
    let r1 := recvDispatch h p
    if p.typ = 0 then (r1.1, some p, r1.2)
    else
      let r2 := handleEvent r1.1 p
      let r3 := sendCommandLoop r2.1 ps
      (r3.1, r3.2.1, r1.2 ++ r2.2 ++ r3.2.2)

/-- Embeds `struct.pack('<4B', a, b, c, d)`: four unsigned bytes, or a
`struct.error` when a value does not fit. -/
def pack4B (a b c d : Nat) : Except String (List Nat) :=
  if a ≤ 255 ∧ b ≤ 255 ∧ c ≤ 255 ∧ d ≤ 255 then .ok [a, b, c, d]
  else .error "struct.error"

/-- Embeds `BLED112._send_command`: write the 4-byte header plus payload, then
run the read loop on the subsequently framed packets. -/
def sendCommand (h : Handlers) (cls cmd : Nat) (payload : List Nat)
    (stream : List Packet) :
    Except String (List Nat × (Handlers × Option Packet × List Packet)) :=
  match pack4B 0 payload.length cls cmd with
  | .error e => .error e
  | .ok hdr => .ok (hdr ++ payload, sendCommandLoop h stream)

theorem handleEvent_external (h : Handlers) (p : Packet) :
    ((handleEvent h p).1).external = h.external := rfl

theorem recvDispatch_external (h : Handlers) (p : Packet) :
    ((recvDispatch h p).1).external = h.external := by
  unfold recvDispatch
  by_cases hp : p.typ = 0x80 <;> simp [hp, handleEvent_external]

theorem sendCommandLoop_cons_ne (h : Handlers) (p : Packet)
    (ps : List Packet) (hp : p.typ ≠ 0) :
    sendCommandLoop h (p :: ps) =
      ((sendCommandLoop (handleEvent (recvDispatch h p).1 p).1 ps).1,
       (sendCommandLoop (handleEvent (recvDispatch h p).1 p).1 ps).2.1,
       (recvDispatch h p).2 ++ (handleEvent (recvDispatch h p).1 p).2 ++
         (sendCommandLoop (handleEvent (recvDispatch h p).1 p).1 ps).2.2) := by
  simp only [sendCommandLoop]
  rw [if_neg hp]

/-- Core of C3: the read loop returns the first `typ = 0` packet and
passes every earlier packet to the external handler. -/
theorem sendCommandLoop_spec (pre : List Packet) :
    ∀ (h : Handlers) (r : Packet) (post : List Packet),
    (∀ q ∈ pre, q.typ ≠ 0) → r.typ = 0 → h.external = true →
    (sendCommandLoop h (pre ++ r :: post)).2.1 = some r ∧
    ∀ q ∈ pre, q ∈ (sendCommandLoop h (pre ++ r :: post)).2.2 := by
  induction pre with
  | nil =>
    intro h r post _ hr _
    constructor
    · simp [sendCommandLoop, hr]
    · intro q hq
      simp at hq
  | cons q pre ih =>
    intro h r post hpre hr hext
    have hq0 : q.typ ≠ 0 := hpre q (by simp)
    have hext1 : ((handleEvent (recvDispatch h q).1 q).1).external = true := by
      rw [handleEvent_external, recvDispatch_external, hext]
    have hrec := ih (handleEvent (recvDispatch h q).1 q).1 r post
      (fun x hx => hpre x (by simp [hx])) hr hext1
    constructor
    · rw [List.cons_append, sendCommandLoop_cons_ne h q (pre ++ r :: post) hq0]
      exact hrec.1
    · intro x hx
      rw [List.cons_append, sendCommandLoop_cons_ne h q (pre ++ r :: post) hq0]
      simp only [List.mem_append]
      rcases List.mem_cons.mp hx with hxq | hxpre
      · subst hxq
        left; right
        have hev : (handleEvent (recvDispatch h x).1 x).2 = [x] := by
          unfold handleEvent
          rw [recvDispatch_external, hext]
          simp
        rw [hev]
        simp
      · right
        exact hrec.2 x hxpre

/-- C3: `send_command(class, cmd, payload)` writes the four header bytes
`0x00, len(payload), class, cmd` followed by the payload to the
transport, and the read loop returns the first subsequently framed
packet with `typ = 0` after passing every earlier packet — in
particular every event packet — to `_handle_event`, the very routing
path `recv_packet` uses, so a registered external handler sees those
events. -/
theorem send_command_spec (h : Handlers) (cls cmd : Nat)
    (payload : List Nat) (pre post : List Packet) (r : Packet)
    (hlen : payload.length ≤ 255) (hcls : cls ≤ 255) (hcmd : cmd ≤ 255)
    (hpre : ∀ q ∈ pre, q.typ ≠ 0) (hr : r.typ = 0)
    (hext : h.external = true) :
    sendCommand h cls cmd payload (pre ++ r :: post) =
      .ok (0 :: payload.length :: cls :: cmd :: payload,
        sendCommandLoop h (pre ++ r :: post)) ∧
    (sendCommandLoop h (pre ++ r :: post)).2.1 = some r ∧
    ∀ q ∈ pre, q ∈ (sendCommandLoop h (pre ++ r :: post)).2.2 := by
  refine ⟨?_, sendCommandLoop_spec pre h r post hpre hr hext⟩
  unfold sendCommand pack4B
  have hc : (0 : Nat) ≤ 255 ∧ payload.length ≤ 255 ∧ cls ≤ 255 ∧ cmd ≤ 255 :=
    ⟨by omega, hlen, hcls, hcmd⟩
  simp [hc]

/-- C3 witness: a two-byte command with one interleaved event before
the response. -/
theorem send_command_spec_witness :
    sendCommand ⟨none, none, true⟩ 6 4 [1, 2]
        ([⟨0x80, 7, 7, []⟩] ++ ⟨0, 6, 4, [9]⟩ :: []) =
      .ok (0 :: 2 :: 6 :: 4 :: [1, 2],
        sendCommandLoop ⟨none, none, true⟩
          ([⟨0x80, 7, 7, []⟩] ++ ⟨0, 6, 4, [9]⟩ :: [])) ∧
    (sendCommandLoop ⟨none, none, true⟩
        ([⟨0x80, 7, 7, []⟩] ++ ⟨0, 6, 4, [9]⟩ :: [])).2.1 =
      some ⟨0, 6, 4, [9]⟩ ∧
    ∀ q ∈ [(⟨0x80, 7, 7, []⟩ : Packet)],
      q ∈ (sendCommandLoop ⟨none, none, true⟩
        ([⟨0x80, 7, 7, []⟩] ++ ⟨0, 6, 4, [9]⟩ :: [])).2.2 :=
  send_command_spec ⟨none, none, true⟩ 6 4 [1, 2]
    [⟨0x80, 7, 7, []⟩] [] ⟨0, 6, 4, [9]⟩
    (by decide) (by decide) (by decide)
    (by intro q hq; simp at hq; subst hq; decide) (by decide) (by decide)

/-- Embeds the `while res[0] is None: self.recv_packet()` loop of `BLED112._wait_event`, running `while res[0] is None: self.recv_packet()`
loop over the already-framed packet stream.  `recv_packet` dispatches
each event packet through `_handle_event` (which lets the installed
filter store a match into `res[0]` and passes the packet to the
external handler) before returning it; the loop then rechecks
`res[0]`.  Returns the handler state when the loop stops, the matched
packet (none when the stream runs dry while the call is still
blocked), and the packets passed to the external handler. -/
def waitEventLoop (h : Handlers) :
    List Packet → Handlers × Option Packet × List Packet
  | [] => (h, none, [])
  | p :: ps =>
    let r1 := recvDispatch h p
    match r1.1.matched with
    | some m => (r1.1, some m, r1.2)
    | none =>
      let r2 := waitEventLoop r1.1 ps
      (r2.1, r2.2.1, r1.2 ++ r2.2.2)

/-- Embeds `BLED112._wait_event(cls, cmd)`: install the filter as the internal
handler, pump the receive loop, and set the internal handler back to
`None` after the loop — which is reached only when a match arrived.
If the stream never matches, the call is still blocked and the filter
is still installed. -/
def waitEvent (cls cmd : Nat) (ext : Bool) (stream : List Packet) :
    Handlers × Option Packet × List Packet :=
  let r := waitEventLoop ⟨some (cls, cmd), none, ext⟩ stream
  match r.2.1 with
  | some m => ({ r.1 with internal := none }, some m, r.2.2)
  | none => r

theorem waitEventLoop_cons (h : Handlers) (p : Packet) (ps : List Packet) :
    waitEventLoop h (p :: ps) =
      (match ((recvDispatch h p).1).matched with
       | some m => ((recvDispatch h p).1, some m, (recvDispatch h p).2)
       | none =>
         ((waitEventLoop (recvDispatch h p).1 ps).1,
          (waitEventLoop (recvDispatch h p).1 ps).2.1,
          (recvDispatch h p).2 ++
            (waitEventLoop (recvDispatch h p).1 ps).2.2)) := by
  simp only [waitEventLoop]

/-- A packet that is not a matching event leaves the wait-filter state
entirely unchanged, contributing only its external delivery. -/
theorem recvDispatch_no_match (cls cmd : Nat) (ext : Bool) (q : Packet)
    (hq : q.typ = 0x80 → ¬(q.cls = cls ∧ q.cmd = cmd)) :
    recvDispatch ⟨some (cls, cmd), none, ext⟩ q =
      (⟨some (cls, cmd), none, ext⟩,
        if q.typ = 0x80 ∧ ext = true then [q] else []) := by
  unfold recvDispatch handleEvent
  by_cases ht : q.typ = 0x80
  · have hm : ¬(q.cls = cls ∧ q.cmd = cmd) := hq ht
    simp [ht, hm]
  · simp [ht]

/-- C4: while `_wait_event(cls, cmd)` is pending, every event packet in
the stream ahead of the first matching event is delivered to the
registered external handler, in order and before the matching event;
the matching event itself is also delivered, then returned, with the
filter uninstalled.  No event is dropped or deferred. -/
theorem wait_event_delivers_unrelated (cls cmd : Nat)
    (pre post : List Packet) (m : Packet)
    (hpre : ∀ q ∈ pre, q.typ = 0x80 → ¬(q.cls = cls ∧ q.cmd = cmd))
    (hm : m.typ = 0x80) (hc : m.cls = cls) (hd : m.cmd = cmd) :
    waitEvent cls cmd true (pre ++ m :: post) =
      (⟨none, some m, true⟩, some m,
        pre.filter (fun q => q.typ == 0x80) ++ [m]) := by
  have hmatch : recvDispatch ⟨some (cls, cmd), none, true⟩ m =
      (⟨some (cls, cmd), some m, true⟩, [m]) := by
    unfold recvDispatch handleEvent
    simp [hm, hc, hd]
  have hloop : ∀ (pre' : List Packet),
      (∀ q ∈ pre', q.typ = 0x80 → ¬(q.cls = cls ∧ q.cmd = cmd)) →
      waitEventLoop ⟨some (cls, cmd), none, true⟩ (pre' ++ m :: post) =
        (⟨some (cls, cmd), some m, true⟩, some m,
          pre'.filter (fun q => q.typ == 0x80) ++ [m]) := by
    intro pre'
    induction pre' with
    | nil =>
      intro _
      rw [List.nil_append, waitEventLoop_cons, hmatch]
      simp
    | cons q qre ih =>
      intro hq
      rw [List.cons_append, waitEventLoop_cons,
        recvDispatch_no_match cls cmd true q (hq q (by simp))]
      simp only
      rw [ih (fun x hx => hq x (by simp [hx]))]
      by_cases ht : q.typ = 0x80
      · simp [ht]
      · simp [ht]
  unfold waitEvent
  rw [hloop pre hpre]

/-- C4 witness: one unrelated event, one response-typed packet, then
the awaited event; the unrelated event reaches the external handler
first. -/
theorem wait_event_delivers_unrelated_witness :
    waitEvent 4 1 true
        ([⟨0x80, 9, 9, []⟩, ⟨0, 4, 1, []⟩] ++ ⟨0x80, 4, 1, [2]⟩ :: []) =
      (⟨none, some ⟨0x80, 4, 1, [2]⟩, true⟩, some ⟨0x80, 4, 1, [2]⟩,
        [⟨0x80, 9, 9, []⟩, ⟨0x80, 4, 1, [2]⟩]) := by
  have h := wait_event_delivers_unrelated 4 1
    [⟨0x80, 9, 9, []⟩, ⟨0, 4, 1, []⟩] [] ⟨0x80, 4, 1, [2]⟩
    (by intro q hq; fin_cases hq <;> decide) (by decide) rfl rfl
  rw [h]
  rfl

/-- C5 (counterexample): `_wait_event` has no timeout parameter and no
restore-on-failure path: pumping a stream that never delivers the
awaited event leaves the temporary filter installed (the call simply
never returns), so the claim that "in both outcomes the temporary
filter is uninstalled before the call returns" fails on the
non-matching outcome. -/
theorem wait_event_C5_counterexample :
    (waitEvent 1 2 true [⟨0x80, 3, 4, []⟩]).2.1 = none ∧
    (waitEvent 1 2 true [⟨0x80, 3, 4, []⟩]).1.internal = some (1, 2) := by
  decide

theorem waitEventLoop_internal (stream : List Packet) : ∀ h : Handlers,
    ((waitEventLoop h stream).1).internal = h.internal := by
  induction stream with
  | nil => intro h; rfl
  | cons p ps ih =>
    intro h
    rw [waitEventLoop_cons]
    have hint : ((recvDispatch h p).1).internal = h.internal := by
      unfold recvDispatch handleEvent
      by_cases ht : p.typ = 0x80 <;> simp [ht]
    cases hm : ((recvDispatch h p).1).matched with
    | some m => simpa using hint
    | none =>
      simp only
      rw [ih]
      exact hint

/-- C5 (amended): `_wait_event(cls, cmd)` takes no timeout: it pumps
the receive loop until a packet with the given (class, cmd) event
signature arrives, and the temporary filter is uninstalled before the
call returns only on that match path; when the stream yields no match
the call never returns and the filter stays installed. -/
theorem wait_event_filter_restore (cls cmd : Nat) (ext : Bool)
    (stream : List Packet) :
    ((waitEvent cls cmd ext stream).2.1.isSome →
      ((waitEvent cls cmd ext stream).1).internal = none) ∧
    ((waitEvent cls cmd ext stream).2.1 = none →
      ((waitEvent cls cmd ext stream).1).internal = some (cls, cmd)) := by
  unfold waitEvent
  cases hres : (waitEventLoop ⟨some (cls, cmd), none, ext⟩ stream).2.1 with
  | some m => simp [hres]
  | none =>
    simp only [hres]
    constructor
    · intro hs
      simp at hs
    · intro _
      rw [waitEventLoop_internal]

/-- C5 witness: with a matching stream the filter is gone; with an
empty stream (a wait that would block forever) it is still installed. -/
theorem wait_event_filter_restore_witness :
    ((waitEvent 1 2 true [⟨0x80, 1, 2, []⟩]).1).internal = none ∧
    ((waitEvent 1 2 true []).1).internal = some (1, 2) :=
  ⟨(wait_event_filter_restore 1 2 true [⟨0x80, 1, 2, []⟩]).1 (by decide),
   (wait_event_filter_restore 1 2 true []).2 (by decide)⟩

/-! ## Connection-handle preconditions (`bled112.py`: `__init__`,
`disconnect`, `read_attr`, `write_attr`; `myoraw.py`:
`get_battery_level`, `get_name`) -/

/-- Value of `self.conn` right after `BLED112.__init__`: absent. -/
def initConn : Option Nat := none

/-- Embeds `struct.pack('<BH', c, attr)`: a byte and a little-endian 16-bit
value. -/
def packBH (c attr : Nat) : List Nat :=
  [c % 256, attr % 256, attr / 256 % 256]

/-- Embeds `BLED112.read_attr(attr)`: when a connection handle is held, send
command (4, 4) and wait for the (4, 5) event, stripping the 5-byte
sub-header off its payload (`eventPayload` stands for the payload of
that event); when the handle is absent, return `None` without touching
the transport.  The second component lists the transport writes. -/
def readAttr (conn : Option Nat) (attr : Nat) (eventPayload : List Nat) :
    Option (List Nat) × List (List Nat) :=
  match conn with
  | some c => (some (eventPayload.drop 5), [[0, 3, 4, 4] ++ packBH c attr])
  | none => (none, [])

/-- Embeds `BLED112.write_attr(attr, val, wait_response)`: send command (4, 5)
and optionally wait for the (4, 1) event; absent handle returns `None`
with no transport write. -/
def writeAttr (conn : Option Nat) (attr : Nat) (val : List Nat)
    (waitResp : Bool) (eventPayload : List Nat) :
    Option (List Nat) × List (List Nat) :=
  match conn with
  | some c =>
    ((if waitResp then some (eventPayload.drop 5) else none),
      [[0, (4 + val.length) % 256, 4, 5] ++ packBH c attr ++
        [val.length % 256] ++ val])
  | none => (none, [])

/-- Embeds `BLED112.disconnect()`: send the teardown command (3, 0) when a
handle is held (the handle itself is never cleared), else do nothing
and return `None`.  Components: connection handle after the call, the
returned response (`resp` stands for the `_send_command` response when
one is sent), transport writes. -/
def disconnectConn (conn : Option Nat) (resp : Packet) :
    Option Nat × Option Packet × List (List Nat) :=
  match conn with
  | some c => (some c, some resp, [[0, 1, 3, 0, c % 256]])
  | none => (none, none, [])

/-- Embeds `MyoRaw.get_battery_level`: `struct.unpack('<B', read_attr(0x11))`.
When `read_attr` gives `None`, `struct.unpack` raises a `TypeError`;
when it gives anything but exactly one byte, a `struct.error`. -/
def getBatteryLevel (conn : Option Nat) (eventPayload : List Nat) :
    Except String Nat × List (List Nat) :=
  let r := readAttr conn 0x11 eventPayload
  (match r.1 with
   | none => .error "TypeError"
   | some bs =>
     match bs with
     | [b] => .ok b
     | _ => .error "struct.error",
   r.2)

/-- Embeds `MyoRaw.get_name`: `read_attr(0x03).decode('utf-8')`.  When
`read_attr` gives `None`, `.decode` raises an `AttributeError`; the
decode itself is modelled as the identity on the byte list. -/
def getName (conn : Option Nat) (eventPayload : List Nat) :
    Except String (List Nat) × List (List Nat) :=
  let r := readAttr conn 0x03 eventPayload
  (match r.1 with
   | none => .error "AttributeError"
   | some bs => .ok bs,
   r.2)

/-- C6 (counterexample): `disconnect` does not clear the connection
handle — after `disconnect` on handle 0 the handle is still 0 — and
`get_battery_level` invoked with the handle absent raises a
`TypeError` inside `struct.unpack` instead of returning an absent
result. -/
theorem conn_C6_counterexample :
    (disconnectConn (some 0) ⟨0, 3, 0, []⟩).1 = some 0 ∧
    (getBatteryLevel none []).1 = .error "TypeError" :=
  ⟨rfl, rfl⟩

/-- C6 (amended): the connection handle is absent before connect;
`disconnect` sends the teardown command but never clears the handle;
`read_attr`, `write_attr` and `disconnect` invoked while the handle is
absent return an absent result and perform no transport I/O; the
device-control operations built on them, `get_battery_level` and
`get_name`, invoked while the handle is absent perform no transport
I/O either but fail on the absent read result (`TypeError` /
`AttributeError`) rather than returning an absent result. -/
theorem conn_absent_behaviour (attr c : Nat) (val pay : List Nat)
    (w : Bool) (resp : Packet) :
    initConn = none ∧
    readAttr none attr pay = (none, []) ∧
    writeAttr none attr val w pay = (none, []) ∧
    disconnectConn none resp = (none, none, []) ∧
    (disconnectConn (some c) resp).1 = some c ∧
    (getBatteryLevel none pay).1 = .error "TypeError" ∧
    (getBatteryLevel none pay).2 = [] ∧
    (getName none pay).1 = .error "AttributeError" ∧
    (getName none pay).2 = [] :=
  ⟨rfl, rfl, rfl, rfl, rfl, rfl, rfl, rfl, rfl⟩

/-! ## Subscription (`myoraw.py`: `MyoRaw.subscribe`) -/

/-- The `EMGMode` enumeration of `myoraw.py`. -/
inductive EMGMode where
  | off | smoothed | rawFiltered | raw
deriving DecidableEq, Repr, Fintype

/-- Wire value of an `EMGMode`. -/
def EMGMode.toNat : EMGMode → Nat
  | .off => 0x00
  | .smoothed => 0x01
  | .rawFiltered => 0x02
  | .raw => 0x03

/-- The `IMUMode` enumeration of `myoraw.py`. -/
inductive IMUMode where
  | off | on | events | all | raw
deriving DecidableEq, Repr, Fintype

/-- Wire value of an `IMUMode`. -/
def IMUMode.toNat : IMUMode → Nat
  | .off => 0x00
  | .on => 0x01
  | .events => 0x02
  | .all => 0x03
  | .raw => 0x04

/-- The `CLFState` enumeration of `myoraw.py`. -/
inductive CLFState where
  | off | active | passive
deriving DecidableEq, Repr, Fintype

/-- Wire value of a `CLFState`. -/
def CLFState.toNat : CLFState → Nat
  | .off => 0x00
  | .active => 0x01
  | .passive => 0x02

/-- Embeds `clf_mode = clf_state != CLFState.OFF`, converted to a byte by
`bytes([...])`. -/
def clfModeByte (c : CLFState) : Nat := if c = CLFState.off then 0 else 1

/-- The legacy sensor-parameter blob
`struct.pack('<4BH5B', 2, 9, 2, 1, f_s, emg_smooth, f_s // emg_hz, imu_hz, 0, 0)`
with `f_s = 1000`, `emg_hz = 50`, `emg_smooth = 100`, `imu_hz = 50`. -/
def legacySensorParams : List Nat :=
  let fs := 1000
  let emgHz := 50
  let emgSmooth := 100
  let imuHz := 50
  [2, 9, 2, 1, fs % 256, fs / 256 % 256, emgSmooth, fs / emgHz, imuHz, 0, 0]

/-- The `write_attr` calls of the legacy branch of `subscribe`
(version < 1.0.0.0), in order: init blob to 0x19, the four official
EMG notification enables, the hidden EMG characteristic, the IMU
characteristic, then the sensor-parameter blob to 0x19. -/
def legacyWrites : List (Nat × List Nat) :=
  [(0x19, [0x01, 0x02, 0x00, 0x00]),
   (0x2f, [0x01, 0x00]), (0x2c, [0x01, 0x00]),
   (0x32, [0x01, 0x00]), (0x35, [0x01, 0x00]),
   (0x28, [0x01, 0x00]),
   (0x1d, [0x01, 0x00]),
   (0x19, legacySensorParams)]

/-- The `write_attr` calls of the modern branch of `subscribe`. -/
def modernWrites (emg : EMGMode) (imu : IMUMode) (clf : CLFState)
    (battery : Bool) : List (Nat × List Nat) :=
  (if imu ≠ IMUMode.off then [(0x1d, [0x01, 0x00])] else []) ++
  (if clf = CLFState.active then [(0x24, [0x02, 0x00])] else []) ++
  (if battery then [(0x12, [0x01, 0x10])] else []) ++
  (if emg = EMGMode.raw ∨ emg = EMGMode.rawFiltered then
    [(0x2c, [0x01, 0x00]), (0x2f, [0x01, 0x00]),
     (0x32, [0x01, 0x00]), (0x35, [0x01, 0x00])]
   else if emg = EMGMode.smoothed then [(0x28, [0x01, 0x00])] else []) ++
  [(0x19, [0x01, 0x03, emg.toNat, imu.toNat, clfModeByte clf])]

/-- Python's lexicographic `<` on the four-field firmware version
tuple. -/
def versionLt (a b : Nat × Nat × Nat × Nat) : Bool :=
  if a.1 ≠ b.1 then decide (a.1 < b.1)
  else if a.2.1 ≠ b.2.1 then decide (a.2.1 < b.2.1)
  else if a.2.2.1 ≠ b.2.2.1 then decide (a.2.2.1 < b.2.2.1)
  else decide (a.2.2.2 < b.2.2.2)

/-- Embeds `MyoRaw.subscribe`: the sequence of `write_attr` calls it issues,
branching on `self.version < (1, 0, 0, 0)`. -/
def subscribeWrites (v : Nat × Nat × Nat × Nat) (emg : EMGMode)
    (imu : IMUMode) (clf : CLFState) (battery : Bool) :
    List (Nat × List Nat) :=
  if versionLt v (1, 0, 0, 0) then legacyWrites
  else modernWrites emg imu clf battery

/-- C8: `subscribe` branches solely on the firmware version: below
(1,0,0,0) it performs the fixed legacy write sequence (independent of
the requested modes); at or above (1,0,0,0) the four raw EMG
characteristics 0x2c, 0x2f, 0x32, 0x35 are subscribed exactly when
`emg_mode` is RAW or RAW_FILTERED, the smoothed characteristic 0x28
is subscribed exactly when `emg_mode` is SMOOTHED — never both — and
the last write is the single combined mode-set command to 0x19. -/
theorem subscribe_branches (v : Nat × Nat × Nat × Nat) (emg : EMGMode)
    (imu : IMUMode) (clf : CLFState) (battery : Bool) :
    (versionLt v (1, 0, 0, 0) = true →
      subscribeWrites v emg imu clf battery =
        [(0x19, [0x01, 0x02, 0x00, 0x00]),
         (0x2f, [0x01, 0x00]), (0x2c, [0x01, 0x00]),
         (0x32, [0x01, 0x00]), (0x35, [0x01, 0x00]),
         (0x28, [0x01, 0x00]),
         (0x1d, [0x01, 0x00]),
         (0x19, [2, 9, 2, 1, 232, 3, 100, 20, 50, 0, 0])]) ∧
    (versionLt v (1, 0, 0, 0) = false →
      ((0x2c ∈ (subscribeWrites v emg imu clf battery).map Prod.fst ∧
        0x2f ∈ (subscribeWrites v emg imu clf battery).map Prod.fst ∧
        0x32 ∈ (subscribeWrites v emg imu clf battery).map Prod.fst ∧
        0x35 ∈ (subscribeWrites v emg imu clf battery).map Prod.fst) ↔
        (emg = EMGMode.raw ∨ emg = EMGMode.rawFiltered)) ∧
      ((0x28 ∈ (subscribeWrites v emg imu clf battery).map Prod.fst) ↔
        emg = EMGMode.smoothed) ∧
      ¬(0x28 ∈ (subscribeWrites v emg imu clf battery).map Prod.fst ∧
        0x2c ∈ (subscribeWrites v emg imu clf battery).map Prod.fst) ∧
      (subscribeWrites v emg imu clf battery).getLast? =
        some (0x19, [0x01, 0x03, emg.toNat, imu.toNat, clfModeByte clf])) := by
  constructor
  · intro hv
    simp only [subscribeWrites, hv, if_true]
    rfl
  · intro hv
    have hsub : subscribeWrites v emg imu clf battery =
        modernWrites emg imu clf battery := by
      simp only [subscribeWrites, hv]
      rfl
    rw [hsub]
    clear hsub hv
    revert battery clf imu emg
    decide

/-- C8 witness: firmware (0,9,0,0) takes the legacy branch, firmware
(1,0,0,0) the modern one; with RAW EMG the four raw characteristics
are subscribed and 0x28 is not. -/
theorem subscribe_branches_witness :
    subscribeWrites (0, 9, 0, 0) EMGMode.raw IMUMode.on CLFState.active
        true =
      [(0x19, [0x01, 0x02, 0x00, 0x00]),
       (0x2f, [0x01, 0x00]), (0x2c, [0x01, 0x00]),
       (0x32, [0x01, 0x00]), (0x35, [0x01, 0x00]),
       (0x28, [0x01, 0x00]),
       (0x1d, [0x01, 0x00]),
       (0x19, [2, 9, 2, 1, 232, 3, 100, 20, 50, 0, 0])] ∧
    ¬(0x28 ∈ (subscribeWrites (1, 0, 0, 0) EMGMode.raw IMUMode.on
        CLFState.active true).map Prod.fst ∧
      0x2c ∈ (subscribeWrites (1, 0, 0, 0) EMGMode.raw IMUMode.on
        CLFState.active true).map Prod.fst) :=
  ⟨(subscribe_branches (0, 9, 0, 0) EMGMode.raw IMUMode.on CLFState.active
      true).1 (by decide),
   ((subscribe_branches (1, 0, 0, 0) EMGMode.raw IMUMode.on CLFState.active
      true).2 (by decide)).2.2.1⟩

/-! ## Attribute decode (`myoraw.py`: the `handle_data` closure
installed by `subscribe`) -/

/-- The `Arm` enumeration of `myoraw.py`; `Arm(val)` raises on other values. -/
inductive Arm where
  | unknown | right | left
deriving DecidableEq, Repr

/-- Conversion `Arm(val)`, partial. -/
def Arm.ofNat? : Nat → Option Arm
  | 0 => some .unknown
  | 1 => some .right
  | 2 => some .left
  | _ => none

/-- The `XDirection` enumeration of `myoraw.py`. -/
inductive XDirection where
  | unknown | towardWrist | towardElbow
deriving DecidableEq, Repr

/-- Conversion `XDirection(xdir)`, partial. -/
def XDirection.ofNat? : Nat → Option XDirection
  | 0 => some .unknown
  | 1 => some .towardWrist
  | 2 => some .towardElbow
  | _ => none

/-- The `Pose` enumeration of `myoraw.py`. -/
inductive Pose where
  | rest | fist | waveIn | waveOut | fingersSpread | thumbToPinky
  | unknown
deriving DecidableEq, Repr

/-- Conversion `Pose(val)`, partial. -/
def Pose.ofNat? : Nat → Option Pose
  | 0 => some .rest
  | 1 => some .fist
  | 2 => some .waveIn
  | 3 => some .waveOut
  | 4 => some .fingersSpread
  | 5 => some .thumbToPinky
  | 255 => some .unknown
  | _ => none

/-- One decoded sample handed to
`ConsumerPool.enqueue_data(category, ...)`, by category (the
receive-time timestamp argument is not modelled). -/
inductive Sample where
  | emg (vals : List Int) (moving : Option Nat) (characteristic : Option Nat)
  | imu (quat acc gyro : List Int)
  | arm (side : Arm) (xdir : XDirection)
  | pose (p : Pose)
  | battery (level : Nat)
deriving DecidableEq, Repr

/-- A byte as a signed 8-bit value (`struct` format `b`). -/
def sint8 (b : Nat) : Int :=
  if b < 128 then (b : Int) else (b : Int) - 256

/-- Consecutive little-endian byte pairs as unsigned 16-bit values
(`struct` format `<H`, repeated). -/
def le16U : List Nat → List Int
  | lo :: hi :: rest => ((lo + 256 * hi : Nat) : Int) :: le16U rest
  | _ => []

/-- Consecutive little-endian byte pairs as signed 16-bit values
(`struct` format `<h`, repeated). -/
def le16S : List Nat → List Int
  | lo :: hi :: rest =>
    (let v := lo + 256 * hi
     if v < 32768 then (v : Int) else (v : Int) - 65536) :: le16S rest
  | _ => []

/-- The `handle_data(attr, pay)` closure of `MyoRaw.subscribe`: decode
one attribute notification into the samples it enqueues.  `struct`
length mismatches and out-of-range enum conversions are Python
exceptions, modelled as `Except.error`; an unknown attribute handle is
only logged and yields no sample. -/
def handleData (attr : Nat) (pay : List Nat) :
    Except String (List Sample) :=
  if attr = 0x27 then
    if pay.length ≥ 17 then
      .ok [.emg (le16U (pay.take 16)) (some ((pay.drop 16).headD 0)) none]
    else .error "struct.error"
  else if attr = 0x2b ∨ attr = 0x2e ∨ attr = 0x31 ∨ attr = 0x34 then
    if pay.length = 16 then
      .ok [.emg ((pay.take 8).map sint8) none (some ((attr - 1) / 3 - 14)),
           .emg ((pay.drop 8).map sint8) none (some ((attr - 1) / 3 - 14))]
    else .error "struct.error"
  else if attr = 0x1c then
    if pay.length ≥ 20 then
      .ok [.imu (le16S (pay.take 8)) (le16S ((pay.drop 8).take 6))
            (le16S ((pay.drop 14).take 6))]
    else .error "struct.error"
  else if attr = 0x23 then
    match pay with
    | typ :: val :: xdir :: _ =>
      if typ = 1 then
        match Arm.ofNat? val, XDirection.ofNat? xdir with
        | some a, some x => .ok [.arm a x]
        | _, _ => .error "ValueError"
      else if typ = 2 then .ok [.arm .unknown .unknown]
      else if typ = 3 then
        match Pose.ofNat? val with
        | some p => .ok [.pose p]
        | none => .error "ValueError"
      else .ok []
    | _ => .error "struct.error"
  else if attr = 0x11 then
    match pay with
    | [b] => .ok [.battery b]
    | _ => .error "TypeError"
  else .ok []

/-- C9: for every 16-byte payload notified on attribute handle 0x2b,
0x2e, 0x31 or 0x34, `handle_data` emits exactly two EMG samples — the
first eight and the last eight bytes, each read as eight signed 8-bit
values — both tagged with characteristic index `(attr - 1) / 3 - 14`. -/
theorem emg_raw_decode (attr : Nat) (pay : List Nat)
    (hattr : attr = 0x2b ∨ attr = 0x2e ∨ attr = 0x31 ∨ attr = 0x34)
    (hlen : pay.length = 16) :
    handleData attr pay =
      .ok [.emg ((pay.take 8).map sint8) none (some ((attr - 1) / 3 - 14)),
           .emg ((pay.drop 8).map sint8) none
             (some ((attr - 1) / 3 - 14))] := by
  rcases hattr with rfl | rfl | rfl | rfl <;> simp [handleData, hlen]

/-- C9 witness: the literal attribute-0x2e payload of bytes 1..16
yields the samples (1,..,8) and (9,..,16), both with characteristic
index `(0x2e - 1) / 3 - 14 = 1`. -/
theorem emg_raw_decode_witness :
    handleData 0x2e
        [1, 2, 3, 4, 5, 6, 7, 8, 9, 10, 11, 12, 13, 14, 15, 16] =
      .ok [.emg [1, 2, 3, 4, 5, 6, 7, 8] none (some 1),
           .emg [9, 10, 11, 12, 13, 14, 15, 16] none (some 1)] := by
  rw [emg_raw_decode 0x2e
    [1, 2, 3, 4, 5, 6, 7, 8, 9, 10, 11, 12, 13, 14, 15, 16]
    (by decide) (by decide)]
  rfl

/-! ## Consumer pool (`consumerpool.py`: `ConsumerPool`) -/

/-- An entry of a consumer queue: either enqueued data (identified
abstractly) or the shutdown sentinel. -/
inductive QItem where
  | sentinel
  | item (d : Nat)
deriving DecidableEq, Repr

/-- The three per-category lists of a `ConsumerPool`
(`self._queues[cat]`, `self._callbacks[cat]`, `self._threads[cat]`);
queues carry their contents, callbacks and threads are identified
abstractly. -/
structure CatState where
  queues : List (List QItem)
  callbacks : List Nat
  threads : List Nat
deriving DecidableEq, Repr

/-- Embeds `ConsumerPool.add_callback`: append the callback, a fresh empty
queue and the started worker thread. -/
def addCallback (s : CatState) (cb tid : Nat) : CatState :=
  { queues := s.queues ++ [[]]
    callbacks := s.callbacks ++ [cb]
    threads := s.threads ++ [tid] }

/-- Python `list.pop(index)` index resolution: negative indices count
from the end; out-of-range raises `IndexError`. -/
def resolvePopIdx (len : Nat) (idx : Int) : Option Nat :=
  let k : Int := if idx < 0 then (len : Int) + idx else idx
  if 0 ≤ k ∧ k < (len : Int) then some k.toNat else none

/-- Embeds `ConsumerPool.pop_callback`: pop the queue at `idx` (its sentinel
is put into the already-removed queue object), pop and join the
thread, then pop and return the callback.  The queue pop runs first,
so an invalid index raises before anything is mutated. -/
def popCallback (s : CatState) (idx : Int) :
    Except String (CatState × Nat) :=
  match resolvePopIdx s.queues.length idx with
  | none => .error "IndexError"
  | some kq =>
    match resolvePopIdx s.threads.length idx with
    | none => .error "IndexError"
    | some kt =>
      match resolvePopIdx s.callbacks.length idx with
      | none => .error "IndexError"
      | some kc =>
        match s.callbacks.get? kc with
        | none => .error "IndexError"
        | some cb =>
          .ok ({ queues := s.queues.eraseIdx kq
                 callbacks := s.callbacks.eraseIdx kc
                 threads := s.threads.eraseIdx kt }, cb)

/-- Embeds `ConsumerPool.clear_callbacks`: sentinel every queue, join every
thread, then clear all three lists. -/
def clearCallbacks (_s : CatState) : CatState :=
  { queues := [], callbacks := [], threads := [] }

/-- Embeds `ConsumerPool.enqueue_data`: broadcast the data to every queue of
the category. -/
def enqueueData (s : CatState) (d : Nat) : CatState :=
  { s with queues := s.queues.map (fun q => q ++ [QItem.item d]) }

/-- Embeds `ConsumerPool.shutdown`, restricted to one category: a sentinel
into every queue, then join every thread; no list shrinks. -/
def shutdownCat (s : CatState) : CatState :=
  { s with queues := s.queues.map (fun q => q ++ [QItem.sentinel]) }

/-- The C10 invariant: the three per-category lists have equal
lengths. -/
def alignedCat (s : CatState) : Prop :=
  s.queues.length = s.callbacks.length ∧
  s.callbacks.length = s.threads.length

instance (s : CatState) : Decidable (alignedCat s) := by
  unfold alignedCat
  infer_instance

theorem resolvePopIdx_lt (len : Nat) (idx : Int) (k : Nat)
    (h : resolvePopIdx len idx = some k) : k < len := by
  unfold resolvePopIdx at h
  by_cases hneg : idx < 0 <;> simp [hneg] at h <;> omega

/-- C10: for every data category, each `ConsumerPool` operation keeps
the three per-category lists the same length and index-aligned:
`add_callback` appends one entry to each list, `pop_callback` removes
the entry at the same resolved index from each list and returns the
removed callback, `clear_callbacks` empties all three, and
`enqueue_data` and the per-category effect of `shutdown` change no
list length. -/
theorem consumer_pool_aligned (s : CatState) (cb tid d : Nat) (idx : Int)
    (hal : alignedCat s) :
    (alignedCat (addCallback s cb tid) ∧
      (addCallback s cb tid).queues.length = s.queues.length + 1 ∧
      (addCallback s cb tid).callbacks.length = s.callbacks.length + 1 ∧
      (addCallback s cb tid).threads.length = s.threads.length + 1) ∧
    (∀ k, resolvePopIdx s.queues.length idx = some k →
      ∃ cbv, popCallback s idx =
          .ok ({ queues := s.queues.eraseIdx k
                 callbacks := s.callbacks.eraseIdx k
                 threads := s.threads.eraseIdx k }, cbv) ∧
        s.callbacks.get? k = some cbv ∧
        alignedCat { queues := s.queues.eraseIdx k
                     callbacks := s.callbacks.eraseIdx k
                     threads := s.threads.eraseIdx k }) ∧
    (clearCallbacks s = ⟨[], [], []⟩ ∧ alignedCat (clearCallbacks s)) ∧
    ((enqueueData s d).queues.length = s.queues.length ∧
      (enqueueData s d).callbacks = s.callbacks ∧
      (enqueueData s d).threads = s.threads ∧
      alignedCat (enqueueData s d)) ∧
    ((shutdownCat s).queues.length = s.queues.length ∧
      (shutdownCat s).callbacks = s.callbacks ∧
      (shutdownCat s).threads = s.threads ∧
      alignedCat (shutdownCat s)) := by
  obtain ⟨hqc, hct⟩ := hal
  refine ⟨⟨?_, ?_, ?_, ?_⟩, ?_, ⟨rfl, by simp [alignedCat, clearCallbacks]⟩,
    ⟨?_, rfl, rfl, ?_⟩, ⟨?_, rfl, rfl, ?_⟩⟩
  · simp [alignedCat, addCallback]
    omega
  · simp [addCallback]
  · simp [addCallback]
  · simp [addCallback]
  · intro k hk
    have hklt : k < s.queues.length := resolvePopIdx_lt _ _ _ hk
    have hkc : resolvePopIdx s.callbacks.length idx = some k := by
      rw [← hqc]; exact hk
    have hkt : resolvePopIdx s.threads.length idx = some k := by
      rw [← hct, ← hqc]; exact hk
    have hget : ∃ cbv, s.callbacks.get? k = some cbv := by
      have : k < s.callbacks.length := by omega
      exact ⟨s.callbacks.get ⟨k, this⟩, List.get?_eq_get this⟩
    obtain ⟨cbv, hcbv⟩ := hget
    refine ⟨cbv, ?_, hcbv, ?_⟩
    · unfold popCallback
      simp only [hk, hkt, hkc]
      simp only [hcbv]
    · have hkc' : k < s.callbacks.length := by omega
      have hkt' : k < s.threads.length := by omega
      constructor
      · rw [List.length_eraseIdx, List.length_eraseIdx, if_pos hklt,
          if_pos hkc']
        omega
      · rw [List.length_eraseIdx, List.length_eraseIdx, if_pos hkc',
          if_pos hkt']
        omega
  · simp [enqueueData]
  · simp [alignedCat, enqueueData, hqc, hct]
  · simp [shutdownCat]
  · simp [alignedCat, shutdownCat, hqc, hct]

/-- C10 witness: a two-consumer category; popping index -1 removes the
last entry of all three lists and returns callback 8. -/
theorem consumer_pool_aligned_witness :
    alignedCat (addCallback ⟨[[]], [7], [3]⟩ 8 4) ∧
    popCallback ⟨[[], []], [7, 8], [3, 4]⟩ (-1) =
      .ok (⟨[[]], [7], [3]⟩, 8) := by
  have h1 := consumer_pool_aligned ⟨[[]], [7], [3]⟩ 8 4 0 0 (by decide)
  have h2 := consumer_pool_aligned ⟨[[], []], [7, 8], [3, 4]⟩ 0 0 0 (-1)
    (by decide)
  refine ⟨h1.1.1, ?_⟩
  obtain ⟨cbv, hpop, hget, _⟩ := h2.2.1 1 (by decide)
  have hcbv : cbv = 8 := by
    simp [List.get?] at hget
    omega
  rw [hpop, hcbv]
  rfl

end MyoLogger
